import Mathlib

/-!
Verification development for the SDTmatchASIN repository.

The repository resolves product identifiers (EANs) to Amazon catalog listings
(ASINs).  This file gives a shallow embedding of the core components:

* `src/pack_size.py` and `src/sdtmatchasin/pack_size.py` — the two pack-size
  extractors (structured-attribute scan plus regex heuristics);
* `src/sdtmatchasin/cli.py` — offer normalisation, deduplication and the
  retry/fallback lookup (`lookup_ean`);
* `src/amazon_ean_matcher.py` — brand matcher, `make_lookup_result`,
  `process_marketplace`, the rate limiter and the batch loop of `run_matcher`.

Python values flowing through the attribute bags are modelled by the inductive
type `PyVal`; machine floats and `Decimal`s are modelled as exact rationals
(the properties proved here do not depend on binary rounding).  The regular
expressions of the two pack-size modules are embedded by an executable
backtracking matcher whose alternatives are produced in Python's preference
order (leftmost start position, greedy repetition, left-to-right alternation).
-/

/-- Model of the Python values that can appear in attribute bags:
`None`, `bool`, `int`, `float`, `decimal.Decimal`, `str`, lists and
string-keyed mappings.  Floats and decimals are modelled as exact rationals. -/
inductive PyVal where
  | none : PyVal
  | bool : Bool → PyVal
  | int : Int → PyVal
  | float : ℚ → PyVal
  | decimal : ℚ → PyVal
  | str : String → PyVal
  | list : List PyVal → PyVal
  | dict : List (String × PyVal) → PyVal

/-- Python truthiness for the modelled value grammar: `None`, `False`, `0`,
empty strings and empty collections are falsy. -/
def pyTruthy : PyVal → Bool
  | .none => false
  | .bool b => b
  | .int i => i != 0
  | .float q => q != 0
  | .decimal q => q != 0
  | .str s => s != ""
  | .list xs => !xs.isEmpty
  | .dict kvs => !kvs.isEmpty

/-- Python's `a or b`: returns `a` when `a` is truthy and `b` otherwise. -/
def pyOr (a b : PyVal) : PyVal := if pyTruthy a then a else b

/-- `dict.get(key)` with default `None`.  Dictionary keys are assumed distinct,
as they are in a Python `dict`; the first binding wins. -/
def dGet (kvs : List (String × PyVal)) (key : String) : PyVal :=
  match kvs.find? (fun kv => kv.1 == key) with
  | some kv => kv.2
  | none => .none

/-- Python `int(q)` on a float/decimal: truncation toward zero. -/
def pyTrunc (q : ℚ) : Int := if 0 ≤ q then ⌊q⌋ else ⌈q⌉

/-- Numeric value of a list of decimal digit characters. -/
def digitsVal (ds : List Char) : Nat :=
  ds.foldl (fun acc c => 10 * acc + (c.toNat - '0'.toNat)) 0

/-- Python `str.strip()` for the (ASCII-spaced) strings handled here:
drop leading and trailing whitespace. -/
def pyStrip (s : String) : String :=
  ⟨((s.data.dropWhile Char.isWhitespace).reverse.dropWhile Char.isWhitespace).reverse⟩

/-- Python `str.lower()` (ASCII lowering, as in the matcher). -/
def pyLower (s : String) : String := ⟨s.data.map Char.toLower⟩

/-- Python `str.upper()` (ASCII raising). -/
def pyUpper (s : String) : String := ⟨s.data.map Char.toUpper⟩

/-- Python `s.startswith(pre)`. -/
def pyStartsWith (s pre : String) : Bool := pre.data.isPrefixOf s.data

/-- Python `s.replace(t, r)` for a single-character target, the only shape
the sources use (`.replace(",", "")` and `.replace(",", ".")`). -/
def pyReplaceChar (s : String) (target : Char) (repl : List Char) : String :=
  ⟨s.data.flatMap (fun c => if c = target then repl else [c])⟩

/-- Truthiness of an `Option Int` holding a Python `int`-or-`None`:
`None` and `0` are falsy. -/
def optTruthy : Option Int → Bool
  | Option.none => false
  | Option.some v => v != 0

/-! ### A tiny backtracking matcher for the pack-size regular expressions

Each regex of the two pack-size modules contains exactly one capturing group
and that group always matches a run of decimal digits, so a matcher state
carries at most one captured digit run.  A matcher returns the list of
possible outcome states in Python's preference order; the head of the list is
the match `re.search` would report at that start position. -/

namespace Rgx

/-- Python's `\w` for the texts handled here: ASCII alphanumerics, underscore,
and non-ASCII letters (e.g. `ü`) which Python treats as word characters. -/
def isWordChar (c : Char) : Bool :=
  c.isAlpha || c.isDigit || c == '_' || decide (c.toNat ≥ 128)

/-- ASCII lowering used for `re.IGNORECASE`; the repository's non-ASCII
pattern letters (`ü`, `î`, `é`, `è`, `×`) appear in lowercase in both the
patterns and the texts of interest. -/
def lower (c : Char) : Char := c.toLower

/-- Matcher state: the character just before the current position (for word
boundaries), the remaining input, and the captured digit run, if any. -/
structure MSt where
  prev : Option Char
  rest : List Char
  cap : Option (List Char)

/-- A matcher maps a state to its possible successor states, most preferred
first. -/
def Matcher := MSt → List MSt

/-- Empty pattern. -/
def mEps : Matcher := fun s => [s]

/-- Sequencing. -/
def mSeq (a b : Matcher) : Matcher := fun s => (a s).flatMap b

def mSeqs : List Matcher → Matcher
  | [] => mEps
  | m :: ms => mSeq m (mSeqs ms)

/-- Ordered alternation, as in Python's `|`. -/
def mAlts (ms : List Matcher) : Matcher := fun s => ms.flatMap (fun m => m s)

/-- Single character from a class. -/
def mCls (p : Char → Bool) : Matcher := fun s =>
  match s.rest with
  | [] => []
  | c :: cs => if p c then [{ s with prev := some c, rest := cs }] else []

/-- Case-insensitive literal. -/
def mLit (lit : String) : Matcher :=
  mSeqs (lit.data.map (fun c => mCls (fun x => lower x == lower c)))

/-- Greedy `?`: prefer the pattern present. -/
def mOpt (m : Matcher) : Matcher := mAlts [m, mEps]

/-- All ways to consume a (possibly bounded) run of class characters,
longest first: `(count, last consumed char, remaining input)`. -/
def repGo (p : Char → Bool) : List Char → Option Nat → Option Char →
    List (Nat × Option Char × List Char)
  | rest, some 0, prev => [(0, prev, rest)]
  | [], _, prev => [(0, prev, [])]
  | c :: cs, hi, prev =>
    if p c then
      ((repGo p cs (hi.map (· - 1)) (some c)).map
        (fun x => (x.1 + 1, x.2.1, x.2.2))) ++ [(0, prev, c :: cs)]
    else
      [(0, prev, c :: cs)]

/-- Greedy repetition of a character class, between `lo` and `hi` occurrences
(`hi = none` meaning unbounded). -/
def mRepCls (p : Char → Bool) (lo : Nat) (hi : Option Nat) : Matcher := fun s =>
  (repGo p s.rest hi s.prev).filterMap (fun x =>
    if x.1 ≥ lo then some { s with prev := x.2.1, rest := x.2.2 } else Option.none)

/-- Greedy capturing digit run `(\d{lo,hi})`, storing the captured digits. -/
def mCapDigits (lo : Nat) (hi : Option Nat) : Matcher := fun s =>
  (repGo Char.isDigit s.rest hi s.prev).filterMap (fun x =>
    if x.1 ≥ lo then
      some { prev := x.2.1, rest := x.2.2, cap := some (s.rest.take x.1) }
    else Option.none)

/-- Word boundary `\b`. -/
def mB : Matcher := fun s =>
  let l := match s.prev with | Option.none => false | some c => isWordChar c
  let r := match s.rest with | [] => false | c :: _ => isWordChar c
  if l != r then [s] else []

/-- `\s*` / `\s+`. -/
def mWs0 : Matcher := mRepCls Char.isWhitespace 0 Option.none
def mWs1 : Matcher := mRepCls Char.isWhitespace 1 Option.none

/-- One character out of a literal set (a character class like `[x×]`),
case-insensitively. -/
def mOneOf (cs : String) : Matcher :=
  mCls (fun x => cs.data.any (fun c => lower x == lower c))

/-- Attempt the matcher at successive start positions, left to right, and
return the captured count of the first (leftmost, most preferred) match —
the value of `int(match.group(1))` for `re.search`. -/
def searchFrom (m : Matcher) : Option Char → List Char → Option Nat
  | prev, rest =>
    match m ⟨prev, rest, Option.none⟩ with
    | st :: _ => some (digitsVal (st.cap.getD []))
    | [] =>
      match rest with
      | [] => Option.none
      | c :: cs => searchFrom m (some c) cs

/-- `re.search(pattern, s)` returning the captured group as a number. -/
def research (m : Matcher) (s : String) : Option Nat :=
  searchFrom m Option.none s.data

end Rgx

/-! ### The regular expressions of `src/pack_size.py` -/

namespace PackSize

open Rgx

/-- `_GERMAN_REGEXES[0]`:
`\b(?:packung|pack|vorrat|set)\s*(?:mit)?\s*(\d{1,3})\b` -/
def germanRx1 : Matcher :=
  mSeqs [mB, mAlts [mLit "packung", mLit "pack", mLit "vorrat", mLit "set"],
    mWs0, mOpt (mLit "mit"), mWs0, mCapDigits 1 (some 3), mB]

/-- `_GERMAN_REGEXES[1]`: `\b(\d{1,3})\s*(?:st(?:ü|u)ck|er)\b` -/
def germanRx2 : Matcher :=
  mSeqs [mB, mCapDigits 1 (some 3), mWs0,
    mAlts [mSeqs [mLit "st", mAlts [mLit "ü", mLit "u"], mLit "ck"], mLit "er"], mB]

/-- `_GERMAN_REGEXES[2]`: `\bpack\s*zu\s*(\d{1,3})\b` -/
def germanRx3 : Matcher :=
  mSeqs [mB, mLit "pack", mWs0, mLit "zu", mWs0, mCapDigits 1 (some 3), mB]

def germanRegexes : List Matcher := [germanRx1, germanRx2, germanRx3]

/-- `_FRENCH_REGEXES[0]`:
`\b(?:lot|pack|paquet|bo[iî]te)\s*(?:de|de\s*|)\s*(\d{1,3})\b` -/
def frenchRx1 : Matcher :=
  mSeqs [mB,
    mAlts [mLit "lot", mLit "pack", mLit "paquet",
      mSeqs [mLit "bo", mOneOf "iî", mLit "te"]],
    mWs0, mAlts [mLit "de", mSeqs [mLit "de", mWs0], mEps],
    mWs0, mCapDigits 1 (some 3), mB]

/-- `_FRENCH_REGEXES[1]`: `\b(\d{1,3})\s*(?:unit[ée]s?|pi[eè]ces?)\b` -/
def frenchRx2 : Matcher :=
  mSeqs [mB, mCapDigits 1 (some 3), mWs0,
    mAlts [mSeqs [mLit "unit", mOneOf "ée", mOpt (mLit "s")],
      mSeqs [mLit "pi", mOneOf "eè", mLit "ce", mOpt (mLit "s")]], mB]

def frenchRegexes : List Matcher := [frenchRx1, frenchRx2]

/-- `_ENGLISH_REGEXES[0]`: `\bpack\s*of\s*(\d{1,3})\b` -/
def englishRx1 : Matcher :=
  mSeqs [mB, mLit "pack", mWs0, mLit "of", mWs0, mCapDigits 1 (some 3), mB]

/-- `_ENGLISH_REGEXES[1]`: `\b(\d{1,3})\s*(?:count|pack|ct|pcs?)\b` -/
def englishRx2 : Matcher :=
  mSeqs [mB, mCapDigits 1 (some 3), mWs0,
    mAlts [mLit "count", mLit "pack", mLit "ct",
      mSeqs [mLit "pc", mOpt (mLit "s")]], mB]

/-- `_ENGLISH_REGEXES[2]`: `\bvalue\s*pack\s*(\d{1,3})\b` -/
def englishRx3 : Matcher :=
  mSeqs [mB, mLit "value", mWs0, mLit "pack", mWs0, mCapDigits 1 (some 3), mB]

def englishRegexes : List Matcher := [englishRx1, englishRx2, englishRx3]

/-! ### `src/pack_size.py`: structured scan and `extract_pack_size` -/

/-- `_STRUCTURED_KEYS`, as written in the source (the membership test applies
`key.lower()` first, so only the all-lowercase entries can ever match). -/
def STRUCTURED_KEYS : List String :=
  ["itempackagequantity", "numberofitems", "item_package_quantity",
   "itemPackageQuantity", "numberOfItems", "unitcount", "unitCount"]

/-- The leading digit run of a string (`re.match(r"(\d+)", s)`). -/
def leadingDigits (s : String) : List Char := s.data.takeWhile Char.isDigit

/-- `re.search(r"(\d{1,3})", s)`: the first run of digits, capped at three. -/
def firstDigitRun3 : List Char → Option (List Char)
  | [] => Option.none
  | c :: cs =>
    if c.isDigit then some (((c :: cs).takeWhile Char.isDigit).take 3)
    else firstDigitRun3 cs

def pyStrJoin : List String → String
  | [] => ""
  | [s] => s
  | s :: rest => s ++ ", " ++ pyStrJoin rest

mutual
/-- Modelled rendering of Python `str(value)` for values reaching the generic
branch of `_coerce_int` (decimals, lists, dicts).  Numeric rendering is
approximate (rationals print as `num/den`); only the digit runs of the
rendering matter to `_coerce_int`, and those stay non-negative under any
rendering. -/
def pyStrGeneric : PyVal → String
  | .none => "None"
  | .bool b => if b then "True" else "False"
  | .int i => toString i
  | .float q => toString q
  | .decimal q => toString q
  | .str s => s
  | .list xs => "[" ++ pyStrJoin (pyStrList xs) ++ "]"
  | .dict kvs => "\x7b" ++ pyStrJoin (pyStrKVs kvs) ++ "\x7d"

def pyStrList : List PyVal → List String
  | [] => []
  | v :: vs => pyStrGeneric v :: pyStrList vs

def pyStrKVs : List (String × PyVal) → List String
  | [] => []
  | kv :: kvs => (kv.1 ++ ": " ++ pyStrGeneric kv.2) :: pyStrKVs kvs
end


/-- A runtime error the `src/pack_size.py` code can raise. -/
inductive PyExc where
  | valueError
deriving DecidableEq, Repr

/-- Python `str.isdigit()` character test, on the character fragment these
claims exercise: the ASCII decimal digits (which `int()` parses) together
with the superscript digit-property characters `¹ ² ³` (U+00B9, U+00B2,
U+00B3) and `⁰ ⁴`–`⁹` (U+2070, U+2074–U+2079), which `isdigit` accepts but
`int()` rejects with `ValueError`.  Other Unicode digit classes (e.g.
non-ASCII decimal digits) are outside the modelled fragment. -/
def isPyDigitChar (c : Char) : Bool :=
  c.isDigit || c.toNat == 0xB9 || c.toNat == 0xB2 || c.toNat == 0xB3 ||
    c.toNat == 0x2070 || (0x2074 ≤ c.toNat && c.toNat ≤ 0x2079)

/-- The generic branch of `_coerce_int` applied to `str(value)`: strip, bail
out on the empty string, drop commas; then, when `value_str.isdigit()` holds,
the source calls the **unprotected** `int(value_str)` (the try/except wraps
only the `str(...)` call), which parses decimal digits but raises an uncaught
`ValueError` on digit-property characters such as `"²"`; otherwise the first
embedded run of up to three `\d` digits is taken. -/
def coerceStr (rendered : String) : Except PyExc (Option Int) :=
  let s := pyStrip rendered
  if s = "" then .ok Option.none
  else
    let s := pyReplaceChar s ',' []
    if s ≠ "" ∧ s.data.all isPyDigitChar then
      if s.data.all Char.isDigit then .ok (some (digitsVal s.data : Int))
      else .error .valueError
    else
      match firstDigitRun3 s.data with
      | some ds => .ok (some (digitsVal ds : Int))
      | Option.none => .ok Option.none

/-- `_coerce_int` (src/pack_size.py, lines 36–57).  `None` and booleans are
rejected; ints and floats must be strictly positive (floats truncate);
everything else is rendered with `str`, stripped, has commas removed, and
either parses fully as digits (where the unprotected `int(...)` may raise,
see `coerceStr`) or contributes its first digit run of length at most
three. -/
def coerceInt (value : PyVal) : Except PyExc (Option Int) :=
  match value with
  | .none => .ok Option.none
  | .bool _ => .ok Option.none
  | .int i => .ok (if i > 0 then some i else Option.none)
  | .float q => .ok (if q > 0 then some (pyTrunc q) else Option.none)
  | v => coerceStr (pyStrGeneric v)

mutual
/-- `_flatten_mapping` on a mapping's key/value pairs: yield each pair, then
recurse into the value; lists recurse element-wise; strings and scalars stop. -/
def flattenKVs : List (String × PyVal) → List (String × PyVal)
  | [] => []
  | kv :: kvs => (kv.1, kv.2) :: flattenVal kv.2 ++ flattenKVs kvs

def flattenVal : PyVal → List (String × PyVal)
  | .dict kvs => flattenKVs kvs
  | .list xs => flattenList xs
  | _ => []

def flattenList : List PyVal → List (String × PyVal)
  | [] => []
  | v :: vs => flattenVal v ++ flattenList vs
end

/-- The per-item coercion of the sequence branch of `_structured_pack_size`:
`_coerce_int(item if not isinstance(item, Mapping) else item.get("value"))`. -/
def itemCoerce (item : PyVal) : Except PyExc (Option Int) :=
  match item with
  | .dict kvs => coerceInt (dGet kvs "value")
  | v => coerceInt v

/-- The `for item in value` loop of `_structured_pack_size`: the loop keeps
the last computed candidate, breaks on the first truthy one, and an exception
raised inside `_coerce_int` propagates. -/
def listCandidate : List PyVal → Except PyExc (Option Int)
  | [] => .ok Option.none
  | x :: xs =>
    match itemCoerce x with
    | .error e => .error e
    | .ok c =>
      if optTruthy c then .ok c
      else
        match xs with
        | [] => .ok c
        | _ :: _ => listCandidate xs

/-- The candidate computed for one flattened `(key, value)` pair whose key is
in the structured key set. -/
def structuredCandidate (v : PyVal) : Except PyExc (Option Int) :=
  match v with
  | .dict kvs =>
    coerceInt (pyOr (dGet kvs "value") (pyOr (dGet kvs "Values") (dGet kvs "values")))
  | .list xs => listCandidate xs
  | v => coerceInt v

/-- The scan loop of `_structured_pack_size` over the flattened pairs; a
`ValueError` raised while coercing a matching key's value propagates. -/
def structuredScan : List (String × PyVal) → Except PyExc (Option Int)
  | [] => .ok Option.none
  | (k, v) :: rest =>
    if STRUCTURED_KEYS.contains (pyLower k) then
      match structuredCandidate v with
      | .error e => .error e
      | .ok c => if optTruthy c then .ok c else structuredScan rest
    else structuredScan rest

/-- `_structured_pack_size` (src/pack_size.py, lines 70–85). -/
def structuredPackSize (attributes : List (String × PyVal)) : Except PyExc (Option Int) :=
  structuredScan (flattenKVs attributes)

/-- The inner regex loop of `_heuristic_pack_size`: first match whose captured
count is strictly positive wins; a zero capture falls through to the next
regex. -/
def regexLoop (text : String) : List Matcher → Option Nat
  | [] => Option.none
  | r :: rs =>
    match research r text with
    | some n => if n > 0 then some n else regexLoop text rs
    | Option.none => regexLoop text rs

/-- `_heuristic_pack_size` (src/pack_size.py, lines 88–103): texts in order,
skipping falsy ones, each tried against every regex of the set. -/
def heuristicPackSize (texts : List String) (regexes : List Matcher) : Option Nat :=
  match texts with
  | [] => Option.none
  | t :: ts =>
    if t = "" then heuristicPackSize ts regexes
    else
      match regexLoop t regexes with
      | some n => some n
      | Option.none => heuristicPackSize ts regexes

/-- The `for regexes in regex_sets` loop of `extract_pack_size`. -/
def regexSetsLoop (texts : List String) : List (List Matcher) → Option Int
  | [] => Option.none
  | rs :: rest =>
    match heuristicPackSize texts rs with
    | some n => if (n : Int) ≠ 0 then some (n : Int) else regexSetsLoop texts rest
    | Option.none => regexSetsLoop texts rest

/-- The `texts` accumulation of `extract_pack_size` (lines 125–129): the
truthy title followed by the truthy bullet points. -/
def textsOf (title : Option String) (bullet_points : Option (List String)) :
    List String :=
  (match title with
   | some t => if t ≠ "" then [t] else []
   | Option.none => []) ++
  ((bullet_points.getD []).filter (fun bp => bp ≠ ""))

/-- `extract_pack_size` (src/pack_size.py, lines 106–147): structured
attributes first (a `ValueError` raised there propagates to the caller), then
the locale-ordered regex cascade over title and bullet points.  There is no
further fallback: if no regex set matches, the result is `None`. -/
def extract_pack_size (attributes : Option (List (String × PyVal)))
    (title : Option String) (bullet_points : Option (List String))
    (locale : Option String) : Except PyExc (Option Int) :=
  let attrs := attributes.getD []
  match structuredPackSize attrs with
  | .error e => .error e
  | .ok ps =>
    if optTruthy ps then .ok ps
    else
      let texts := textsOf title bullet_points
      if texts = [] then .ok Option.none
      else
        let loc := pyUpper (locale.getD "")
        let regexSets :=
          (if pyStartsWith loc "DE" then [germanRegexes] else []) ++
          (if pyStartsWith loc "FR" then [frenchRegexes] else []) ++
          [englishRegexes]
        .ok (regexSetsLoop texts regexSets)

end PackSize

/-! ### `src/sdtmatchasin/pack_size.py` -/

namespace SdtPackSize

open Rgx

/-- `_GERMAN_PATTERNS[0]`: `(?P<count>\d+)\s*(?:er\s*)?(?:pack|stück|st\.?|tlg)\b` -/
def germanPat1 : Matcher :=
  mSeqs [mCapDigits 1 Option.none, mWs0, mOpt (mSeqs [mLit "er", mWs0]),
    mAlts [mLit "pack", mLit "stück", mSeqs [mLit "st", mOpt (mLit ".")], mLit "tlg"], mB]

/-- `_GERMAN_PATTERNS[1]`: `(?P<count>\d+)\s*(?:x|mal)\s*(?:stück|pack)\b` -/
def germanPat2 : Matcher :=
  mSeqs [mCapDigits 1 Option.none, mWs0, mAlts [mLit "x", mLit "mal"], mWs0,
    mAlts [mLit "stück", mLit "pack"], mB]

def germanPatterns : List Matcher := [germanPat1, germanPat2]

/-- `_FRENCH_PATTERNS[0]`: `lot\s+de\s+(?P<count>\d+)` -/
def frenchPat1 : Matcher :=
  mSeqs [mLit "lot", mWs1, mLit "de", mWs1, mCapDigits 1 Option.none]

/-- `_FRENCH_PATTERNS[1]`: `paquet\s+de\s+(?P<count>\d+)` -/
def frenchPat2 : Matcher :=
  mSeqs [mLit "paquet", mWs1, mLit "de", mWs1, mCapDigits 1 Option.none]

def frenchPatterns : List Matcher := [frenchPat1, frenchPat2]

/-- `_GENERIC_PATTERNS[0]`: `pack\s+of\s+(?P<count>\d+)` -/
def genericPat1 : Matcher :=
  mSeqs [mLit "pack", mWs1, mLit "of", mWs1, mCapDigits 1 Option.none]

/-- `_GENERIC_PATTERNS[1]`: `(?P<count>\d+)\s*(?:pack|pcs|pieces|units?)\b` -/
def genericPat2 : Matcher :=
  mSeqs [mCapDigits 1 Option.none, mWs0,
    mAlts [mLit "pack", mLit "pcs", mLit "pieces",
      mSeqs [mLit "unit", mOpt (mLit "s")]], mB]

def genericPatterns : List Matcher := [genericPat1, genericPat2]

/-- The final fallback of `parse_pack_size`: `(?P<count>\d+)\s*[x×]\s*\b`. -/
def fallbackNx : Matcher :=
  mSeqs [mCapDigits 1 Option.none, mWs0, mOneOf "x×", mWs0, mB]

/-- `_extract_numeric` (src/sdtmatchasin/pack_size.py, lines 27–48).
`None` and booleans are rejected; ints are returned unchanged (including
negative values); floats and decimals truncate with `int(...)`; strings are
stripped, lowered, have commas turned into dots, and must start with a digit
run (`re.match`).  Lists and mappings fall off the `isinstance` chain and
yield `None`. -/
def extractNumeric (value : PyVal) : Option Int :=
  match value with
  | .none => Option.none
  | .bool _ => Option.none
  | .int i => some i
  | .float q => some (pyTrunc q)
  | .decimal q => some (pyTrunc q)
  | .str s =>
    let cleaned := pyReplaceChar (pyLower (pyStrip s)) ',' ['.']
    if cleaned = "" then Option.none
    else
      match PackSize.leadingDigits cleaned with
      | [] => Option.none
      | ds => some (digitsVal ds : Int)
  | _ => Option.none

/-- `_search_patterns` (lines 51–59): first pattern with a match wins; the
captured group is a digit run, so `int(...)` never fails. -/
def searchPatterns (title : String) : List Matcher → Option Nat
  | [] => Option.none
  | m :: ms =>
    match research m title with
    | some n => some n
    | Option.none => searchPatterns title ms

/-- Input of `parse_pack_size`: a catalogue-entry mapping with the keys the
function reads (`attributes`, `title`, `locale`, `language`). -/
structure Product where
  attributes : PyVal := .none
  title : Option String := Option.none
  locale : Option String := Option.none
  language : Option String := Option.none

/-- The structured-attribute loop of `parse_pack_size`: for each key in order,
coerce `attributes.get(key)` and return the first truthy value. -/
def structuredLoop (attrs : List (String × PyVal)) : List String → Option Int
  | [] => Option.none
  | k :: ks =>
    let value := extractNumeric (dGet attrs k)
    if optTruthy value then value else structuredLoop attrs ks

/-- Truthy filter applied to `_search_patterns` results (`if value:`):
`None` and `0` both fall through. -/
def truthyNat (v : Option Nat) : Option Nat :=
  match v with
  | some n => if n ≠ 0 then some n else Option.none
  | Option.none => Option.none

/-- `parse_pack_size` (src/sdtmatchasin/pack_size.py, lines 62–104).
Structured attributes first; an empty title defaults to 1; then the German or
French pattern set depending on the locale prefix, then the generic patterns,
then the `N x` fallback (whose value is returned without a truthiness check),
and finally the default 1. -/
def parse_pack_size (p : Product) : Int :=
  let attrs : List (String × PyVal) :=
    match (if pyTruthy p.attributes then p.attributes else .dict []) with
    | .dict kvs => kvs
    | _ => []
  match structuredLoop attrs ["item_package_quantity", "number_of_items", "packageQuantity"] with
  | some v => v
  | Option.none =>
    let title := pyStrip (p.title.getD "")
    if title = "" then 1
    else
      let l1 := p.locale.getD ""
      let locale := pyLower (if l1 ≠ "" then l1 else p.language.getD "")
      let localeValue : Option Nat :=
        if pyStartsWith locale "de" then truthyNat (searchPatterns title germanPatterns)
        else if pyStartsWith locale "fr" then truthyNat (searchPatterns title frenchPatterns)
        else Option.none
      match localeValue with
      | some v => (v : Int)
      | Option.none =>
        match truthyNat (searchPatterns title genericPatterns) with
        | some v => (v : Int)
        | Option.none =>
          match research fallbackNx title with
          | some n => (n : Int)
          | Option.none => 1

end SdtPackSize

/-! ### `src/sdtmatchasin/cli.py`: offers, deduplication, lookup -/

namespace Cli

/-- `Offer` (src/sdtmatchasin/cli.py, lines 16–25).  Prices are modelled as
exact rationals (the float values of the claims are compared only among
themselves, where binary rounding preserves the order). -/
structure Offer where
  ean : String
  asin : String
  price : Option ℚ
  currency : Option String
  source : String
  sources : List String
deriving DecidableEq, Repr

/-- A raw offer record as returned by a client's `search_items`: the fields
`_normalise_offer` reads.  `str(raw.get("asin"))` is modelled by the asin
string itself and `_to_float(raw.get("price"))` by the already-coerced
optional rational. -/
structure RawOffer where
  asin : String
  price : Option ℚ
  currency : Option String
deriving DecidableEq, Repr

/-- `_normalise_offer` (lines 48–56). -/
def normaliseOffer (ean : String) (raw : RawOffer) (source : String) : Offer :=
  { ean := ean, asin := raw.asin, price := raw.price, currency := raw.currency,
    source := source, sources := [source] }

/-- Lexicographic comparison of strings by character code, as Python's `<=`
on `str` behaves for the source tags used here. -/
def charsLe : List Char → List Char → Bool
  | [], _ => true
  | _ :: _, [] => false
  | a :: as, b :: bs =>
    if a.toNat < b.toNat then true
    else if b.toNat < a.toNat then false
    else charsLe as bs

def strLe (a b : String) : Bool := charsLe a.data b.data

def insertStr (s : String) : List String → List String
  | [] => [s]
  | t :: ts => if strLe s t then s :: t :: ts else t :: insertStr s ts

def sortStrs (l : List String) : List String := l.foldr insertStr []

/-- `sorted(set(xs))`: the distinct elements in ascending order. -/
def pySortedSet (xs : List String) : List String := sortStrs xs.eraseDups

/-- Merging one further record into the existing entry for the same asin
(`_deduplicate_offers`, lines 74–82): the source set is always unioned and
sorted; a present price strictly lower than the current best (or any price
when the current best is absent) replaces price, currency and source. -/
def mergeOffer (existing offer : Offer) : Offer :=
  let sources := pySortedSet (existing.sources ++ offer.sources)
  match offer.price with
  | Option.none => { existing with sources := sources }
  | some p =>
    match existing.price with
    | Option.none =>
      { existing with
          sources := sources
          price := some p
          currency := offer.currency
          source := offer.source }
    | some ep =>
      if p < ep then
        { existing with
            sources := sources
            price := some p
            currency := offer.currency
            source := offer.source }
      else { existing with sources := sources }

/-- Update the (unique) entry with the given offer's asin in place, keeping
dictionary insertion order. -/
def updateFirst : List Offer → Offer → List Offer
  | [], _ => []
  | e :: es, o =>
    if e.asin = o.asin then mergeOffer e o :: es else e :: updateFirst es o

/-- The `for offer in offers` loop of `_deduplicate_offers` over the
`combined` dictionary, represented as a list in insertion order.  The
first record for an asin seeds a copy of itself (field-for-field equal);
later records merge in place. -/
def dedupGo (acc : List Offer) : List Offer → List Offer
  | [] => acc
  | o :: rest =>
    if acc.any (fun e => e.asin = o.asin) then dedupGo (updateFirst acc o) rest
    else dedupGo (acc ++ [o]) rest

/-- `_deduplicate_offers` (src/sdtmatchasin/cli.py, lines 59–83). -/
def deduplicateOffers (offers : List Offer) : List Offer := dedupGo [] offers

/-- The asin-to-price mapping induced by an offer list: the price of the
first offer carrying the asin, if any. -/
def asinPrice (l : List Offer) (asin : String) : Option (Option ℚ) :=
  (l.find? (fun o => o.asin = asin)).map Offer.price

/-- The retry loop of `lookup_ean` over the primary (SP) client
(src/sdtmatchasin/cli.py, lines 100–116).  `sp attempt` is what
`sp_client.search_items(ean)` does on that attempt: a raised exception or a
returned record list.  `remaining` counts the attempts left after this one
(`retries - attempt`), and `calls` the `search_items` calls made so far.
On an exception the loop continues while attempts remain, else breaks; on a
result the records are appended and the loop breaks once offers are
non-empty or attempts are exhausted. -/
def spLoop (sp : ℕ → Except Unit (List RawOffer)) (ean : String) :
    ℕ → ℕ → List Offer → ℕ → List Offer × ℕ
  | attempt, remaining, offers, calls =>
    match sp attempt with
    | .error _ =>
      match remaining with
      | 0 => (offers, calls + 1)
      | r + 1 => spLoop sp ean (attempt + 1) r offers (calls + 1)
    | .ok raws =>
      let offers' := offers ++ raws.map (fun r => normaliseOffer ean r "sp")
      if offers'.isEmpty then
        match remaining with
        | 0 => (offers', calls + 1)
        | r + 1 => spLoop sp ean (attempt + 1) r offers' (calls + 1)
      else (offers', calls + 1)

/-- Outcome of one `lookup_ean` call: how many times each client's
`search_items` ran, and the returned offer list. -/
structure LookupOutcome where
  spCalls : ℕ
  paCalls : ℕ
  offers : List Offer
deriving DecidableEq, Repr

/-- `lookup_ean` (src/sdtmatchasin/cli.py, lines 86–126): the primary retry
loop, then — only when no offers were collected — one fallback (PA) call
whose failure returns the empty list directly, skipping deduplication. -/
def lookup_ean (ean : String) (sp : ℕ → Except Unit (List RawOffer))
    (pa : Except Unit (List RawOffer)) (retries : ℕ) : LookupOutcome :=
  let res := spLoop sp ean 0 retries [] 0
  if res.1.isEmpty then
    match pa with
    | .error _ => ⟨res.2, 1, []⟩
    | .ok raws =>
      ⟨res.2, 1, deduplicateOffers (res.1 ++ raws.map (fun r => normaliseOffer ean r "pa"))⟩
  else ⟨res.2, 0, deduplicateOffers res.1⟩

end Cli

/-! ### `src/models.py` and `src/amazon_ean_matcher.py` -/

namespace Matcher

/-- `CatalogItemSummary` (src/models.py, lines 7–16). -/
structure CatalogItemSummary where
  asin : String
  marketplace_id : String
  title : Option String
  brand : Option String
  attributes : List (String × PyVal)
  bullet_points : List String

/-- `PricingInfo` (src/models.py, lines 19–25). -/
structure PricingInfo where
  price : Option ℚ
  currency : Option String
  source : String

/-- `LookupResult` (src/models.py, lines 28–35).  All four fields, `pricing`
included, are required: the dataclass declares `pricing: Optional[PricingInfo]`
with no default value. -/
structure LookupResult where
  ean : String
  marketplace : String
  item : CatalogItemSummary
  pricing : Option PricingInfo

/-- Runtime errors a modelled call can raise. -/
inductive PyError where
  | typeError
deriving DecidableEq, Repr

/-- Calling the `LookupResult` dataclass constructor.  The `pricing` argument
is `some v` when the call site passes `pricing=v` and `Option.none` when the
call site omits the argument; omitting a required dataclass field raises
`TypeError` at call time. -/
def constructLookupResult (ean marketplace : String) (item : CatalogItemSummary)
    (pricing : Option (Option PricingInfo)) : Except PyError LookupResult :=
  match pricing with
  | some pr => .ok ⟨ean, marketplace, item, pr⟩
  | Option.none => .error .typeError

/-- `make_lookup_result` (src/amazon_ean_matcher.py, lines 127–132):
`LookupResult(ean=ean, marketplace=marketplace, item=item)` — the required
`pricing` argument is not passed. -/
def make_lookup_result (ean marketplace : String) (item : CatalogItemSummary) :
    Except PyError LookupResult :=
  constructLookupResult ean marketplace item Option.none

/-- `sub in big` on Python strings. -/
def isInfixChars : List Char → List Char → Bool
  | needle, [] => needle.isEmpty
  | needle, c :: cs => needle.isPrefixOf (c :: cs) || isInfixChars needle cs

def pyIn (sub big : String) : Bool := isInfixChars sub.data big.data

/-- `brand_matches` (src/amazon_ean_matcher.py, lines 109–124), on the code
path where the optional `rapidfuzz` import is unavailable (`fuzz = None`):
missing or blank inputs are permissive, then a trimmed case-insensitive
exact match, then substring containment in either direction.  (With
`rapidfuzz` installed the containment test is replaced by
`partial_ratio ≥ threshold`.) -/
def brand_matches (expected actual : Option String) : Bool :=
  let e := expected.getD ""
  let a := actual.getD ""
  if e = "" || a = "" then true
  else
    let en := pyLower (pyStrip e)
    let an := pyLower (pyStrip a)
    if en = "" || an = "" then true
    else if en = an then true
    else pyIn en an || pyIn an en

/-- The shared seen-set: `Dict[Tuple[str, str], Set[str]]`, a mapping from
(ean, marketplace) to the asins already recorded. -/
def SeenMap := List ((String × String) × List String)

/-- `seen.setdefault(key, set())` membership lookup. -/
def seenGet : SeenMap → (String × String) → List String
  | [], _ => []
  | e :: rest, key => if e.1 = key then e.2 else seenGet rest key

/-- `asin_set.add(asin)` after a `setdefault`: extend the entry for `key`
(creating it when absent).  Only ever called when `asin` is not yet present,
mirroring the guarded add in `process_marketplace`. -/
def seenInsert : SeenMap → (String × String) → String → SeenMap
  | [], key, asin => [(key, [asin])]
  | e :: rest, key, asin =>
    if e.1 = key then (e.1, e.2 ++ [asin]) :: rest
    else e :: seenInsert rest key asin

/-- The `for item in items` loop of `process_marketplace` (lines 175–189),
threading the seen-set and accumulating the appended results.  Reaching
`results.append(make_lookup_result(...))` raises `TypeError` (see
`make_lookup_result`), which propagates out of the loop. -/
def processItems (ean marketplace : String) (input_brand : Option String) :
    SeenMap → List LookupResult → List CatalogItemSummary →
    Except PyError (List LookupResult × SeenMap)
  | seen, acc, [] => .ok (acc, seen)
  | seen, acc, item :: rest =>
    if item.asin = "" then processItems ean marketplace input_brand seen acc rest
    else
      let key := (ean, marketplace)
      if item.asin ∈ seenGet seen key then
        processItems ean marketplace input_brand seen acc rest
      else
        let seen' := seenInsert seen key item.asin
        if ¬ brand_matches input_brand item.brand then
          processItems ean marketplace input_brand seen' acc rest
        else
          match make_lookup_result ean marketplace item with
          | .error e => .error e
          | .ok r => processItems ean marketplace input_brand seen' (acc ++ [r]) rest

/-- `process_marketplace` (src/amazon_ean_matcher.py, lines 155–189), one
sequential call: the rate-limited lookup either raises (caught, empty result)
or yields the item list, which the loop filters against the seen-set and the
brand filter. -/
def process_marketplace (ean marketplace : String) (input_brand : Option String)
    (lookup : Except Unit (List CatalogItemSummary)) (seen : SeenMap) :
    Except PyError (List LookupResult × SeenMap) :=
  match lookup with
  | .error _ => .ok ([], seen)
  | .ok items =>
    if items.isEmpty then .ok ([], seen)
    else processItems ean marketplace input_brand seen [] items

end Matcher

namespace Matcher

/-! ### Interleaved execution of the seen-set protocol

`run_matcher` shares one `seen` dictionary and one `seen_lock` among all
`process_marketplace` tasks of a batch.  The protocol of lines 175–189 is:
per item, atomically under the lock, check membership of the asin in the
(ean, marketplace) entry and record it when absent; afterwards — outside the
lock — apply the brand filter and append the constructed result.  The model
below lets any number of tasks interleave these two micro-steps arbitrarily.
An `emit` step marks a task reaching the `results.append` of line 188 for its
claimed asin (under the current code this construction raises `TypeError`,
which can only remove emissions, never add duplicates). -/

/-- One lookup task: its key, expected brand, remaining items, and the asin
it has claimed under the lock but not yet emitted, if any. -/
structure WTask where
  ean : String
  mkt : String
  brand : Option String
  pending : List CatalogItemSummary
  claimed : Option String

/-- Shared state of a batch: the tasks, the locked seen-set, and the
(ean, marketplace, asin) triples of the emitted results. -/
structure Sys where
  tasks : List WTask
  seen : SeenMap
  emitted : List (String × String × String)

/-- Outcome of one locked iteration of the item loop for task `t` on `item`:
the updated task and seen-set.  Blank asins and already-seen asins are
skipped; a fresh asin is recorded, and the task claims it exactly when the
brand filter passes. -/
def lockUpd (t : WTask) (item : CatalogItemSummary)
    (rest : List CatalogItemSummary) (seen : SeenMap) : WTask × SeenMap :=
  if item.asin = "" then ({ t with pending := rest }, seen)
  else
    let key := (t.ean, t.mkt)
    if item.asin ∈ seenGet seen key then ({ t with pending := rest }, seen)
    else
      let seen' := seenInsert seen key item.asin
      if brand_matches t.brand item.brand then
        ({ t with pending := rest, claimed := some item.asin }, seen')
      else ({ t with pending := rest }, seen')

/-- One interleaving step: some task either performs its next locked
check-and-insert, or emits its claimed result. -/
inductive Step : Sys → Sys → Prop
  | lock (pre post : List WTask) (t : WTask) (item : CatalogItemSummary)
      (rest : List CatalogItemSummary) (seen : SeenMap)
      (emitted : List (String × String × String))
      (hp : t.pending = item :: rest) (hc : t.claimed = Option.none) :
      Step ⟨pre ++ t :: post, seen, emitted⟩
        ⟨pre ++ (lockUpd t item rest seen).1 :: post, (lockUpd t item rest seen).2, emitted⟩
  | emit (pre post : List WTask) (t : WTask) (a : String) (seen : SeenMap)
      (emitted : List (String × String × String))
      (hc : t.claimed = some a) :
      Step ⟨pre ++ t :: post, seen, emitted⟩
        ⟨pre ++ { t with claimed := Option.none } :: post, seen,
          emitted ++ [(t.ean, t.mkt, a)]⟩

/-- Zero or more interleaving steps. -/
def Reach : Sys → Sys → Prop := Relation.ReflTransGen Step

/-- The initial state of a batch: every task still has to process all of its
items, nothing claimed, the seen-set and output empty. -/
def initSys (ts : List (String × String × Option String × List CatalogItemSummary)) : Sys :=
  ⟨ts.map (fun t => ⟨t.1, t.2.1, t.2.2.1, t.2.2.2, Option.none⟩), [], []⟩

/-- Membership of a result triple in the seen-set. -/
def seenMem (seen : SeenMap) (x : String × String × String) : Prop :=
  x.2.2 ∈ seenGet seen (x.1, x.2.1)

/-- The claimed-but-not-yet-emitted triples of the tasks. -/
def claimsOf (tasks : List WTask) : List (String × String × String) :=
  tasks.filterMap (fun t => t.claimed.map (fun a => (t.ean, t.mkt, a)))

/-- Invariant: emitted triples are distinct, pending claims are distinct,
both are recorded in the seen-set, and no claim is already emitted. -/
def Inv (s : Sys) : Prop :=
  s.emitted.Nodup ∧ (claimsOf s.tasks).Nodup ∧
  (∀ x ∈ s.emitted, seenMem s.seen x) ∧
  (∀ x ∈ claimsOf s.tasks, seenMem s.seen x) ∧
  (∀ x ∈ claimsOf s.tasks, x ∉ s.emitted)

end Matcher

namespace Matcher

/-! ### The batch loop of `run_matcher` -/

/-- Observable trace of the row loop of `run_matcher`: the identifiers
appended to `processed_eans`, the identifiers for which marketplace lookups
were submitted, and the `(processed, total, current)` progress-callback
invocations in order. -/
structure RunTrace where
  processed : List String
  lookedUp : List String
  callbacks : List (ℕ × ℕ × Option String)
deriving DecidableEq, Repr

/-- The `for row in rows` loop of `run_matcher` (lines 330–372): blank
identifiers are skipped uncounted; before the resume marker is reached a row
only advances the progress counter; from the marker on (inclusive) the
identifier's marketplace tasks are submitted and the identifier is recorded
as processed. -/
def rowLoop (total : ℕ) (resumeVal : Option String) :
    List String → Bool → ℕ → RunTrace
  | [], _, _ => ⟨[], [], []⟩
  | r :: rest, resumeReached, count =>
    let ean := pyStrip r
    if ean = "" then rowLoop total resumeVal rest resumeReached count
    else if ¬resumeReached ∧ some ean ≠ resumeVal then
      let t := rowLoop total resumeVal rest resumeReached (count + 1)
      ⟨t.processed, t.lookedUp, (count + 1, total, some ean) :: t.callbacks⟩
    else
      let t := rowLoop total resumeVal rest true (count + 1)
      ⟨ean :: t.processed, ean :: t.lookedUp, (count + 1, total, some ean) :: t.callbacks⟩

/-- The row-processing phase of `run_matcher` for a non-empty input: the
initial `progress_callback(0, total, None)` of line 326 followed by the row
loop.  `resume_from` is stripped when truthy (line 320); `resume_reached`
starts true exactly when there is no resume value (line 321). -/
def runMatcherRows (rows : List String) (resumeFrom : Option String) : RunTrace :=
  let total := rows.length
  let resumeVal : Option String :=
    match resumeFrom with
    | some s => if s ≠ "" then some (pyStrip s) else Option.none
    | Option.none => Option.none
  let t := rowLoop total resumeVal rows resumeVal.isNone 0
  ⟨t.processed, t.lookedUp, (0, total, Option.none) :: t.callbacks⟩

/-- How the pre-loop phase of `run_matcher` (lines 294–313) ends. -/
inductive ConfigOutcome where
  /-- No rows: a warning is logged, an output file holding only the header is
  written and `([], [])` is returned — before any client is constructed. -/
  | emptyInput
  /-- `raise ValueError("No valid marketplaces provided")`. -/
  | noMarketplaces
  /-- `raise ValueError("No Amazon API credentials available. Aborting.")`. -/
  | noClient
  /-- A client exists; lookup work begins. -/
  | proceed
deriving DecidableEq, Repr

/-- The pre-loop control flow of `run_matcher`: the empty-input early return
comes first, then the marketplace check, then SP-API client creation with
PA-API fallback, and only then the credentials error. -/
def runMatcherConfig (rows : List String) (marketplaces : List String)
    (spClient paClient : Option Unit) : ConfigOutcome :=
  if rows.isEmpty then .emptyInput
  else if (marketplaces.filter (fun c => c ≠ "")).isEmpty then .noMarketplaces
  else
    match (match spClient with | some c => some c | Option.none => paClient) with
    | Option.none => .noClient
    | some _ => .proceed

/-! ### The rate limiter (src/amazon_ean_matcher.py, lines 135–152)

Real time is modelled by the values of the monotonic clock: a `wait()` call
reads the clock (`arrival`), and when it sleeps, the post-sleep reading
exceeds the requested duration by some `overshoot ≥ 0` (a sleep never returns
early and the second clock read happens after it).  The lock serialises the
calls, and the monotonic clock never decreases, so each call's arrival is at
least the previous call's recorded `_last_call`. -/

/-- `RateLimiter.__init__`: `self._min_interval = max(0.0, float(x))`. -/
def rateLimiterMinInterval (minIntervalSeconds : ℚ) : ℚ := max 0 minIntervalSeconds

/-- One `wait()` call: given the stored `_last_call` and this call's clock
reading, return the new `_last_call` and the requested sleep duration.
With `_min_interval ≤ 0` the call returns immediately, sleeping nothing and
leaving the state untouched. -/
def waitModel (T last arrival overshoot : ℚ) : ℚ × ℚ :=
  if T ≤ 0 then (last, 0)
  else
    let delta := arrival - last
    if delta < T then (arrival + (T - delta) + overshoot, T - delta)
    else (arrival, 0)

/-- The sequence of granted `_last_call` timestamps produced by a run of
serialised `wait()` calls, each described by its clock reading and sleep
overshoot. -/
def rlRun (T : ℚ) : ℚ → List (ℚ × ℚ) → List ℚ
  | _, [] => []
  | last, c :: rest =>
    let g := (waitModel T last c.1 c.2).1
    g :: rlRun T g rest

/-- Physical admissibility of a run: every clock reading is at least the
previous recorded timestamp (lock serialisation plus clock monotonicity) and
overshoots are non-negative. -/
def ValidCalls (T : ℚ) : ℚ → List (ℚ × ℚ) → Prop
  | _, [] => True
  | last, c :: rest =>
    last ≤ c.1 ∧ 0 ≤ c.2 ∧ ValidCalls T (waitModel T last c.1 c.2).1 rest

end Matcher

/-! ## Theorems -/

namespace Cli

/-- The asins of an offer list, in order. -/
def asins (l : List Offer) : List String := l.map Offer.asin

theorem mergeOffer_asin (e o : Offer) : (mergeOffer e o).asin = e.asin := by
  unfold mergeOffer
  split <;> try rfl
  split <;> try rfl
  split <;> rfl

theorem updateFirst_asins (acc : List Offer) (o : Offer) :
    asins (updateFirst acc o) = asins acc := by
  induction acc with
  | nil => rfl
  | cons e es ih =>
    by_cases h : e.asin = o.asin
    · simp [updateFirst, h, asins, mergeOffer_asin]
    · simp only [updateFirst, if_neg h, asins, List.map_cons]
      exact congrArg _ ih

theorem dedupGo_nodup (l : List Offer) :
    ∀ acc : List Offer, (asins acc).Nodup → (asins (dedupGo acc l)).Nodup := by
  induction l with
  | nil => intro acc h; simpa [dedupGo] using h
  | cons o rest ih =>
    intro acc h
    by_cases hmem : acc.any (fun e => e.asin = o.asin)
    · simpa [dedupGo, hmem] using ih _ (by simpa [updateFirst_asins] using h)
    · have hnot : o.asin ∉ asins acc := by
        simp only [List.any_eq_true, decide_eq_true_eq] at hmem
        intro hc
        rcases List.mem_map.mp hc with ⟨e, he, hea⟩
        exact hmem ⟨e, he, hea.symm ▸ rfl⟩
      have : (asins (acc ++ [o])).Nodup := by
        simpa [asins, List.nodup_append] using And.intro h hnot
      simpa [dedupGo, hmem] using ih _ this

theorem dedupGo_disjoint (l : List Offer) :
    ∀ acc : List Offer, (asins l).Nodup →
      (∀ a ∈ asins l, a ∉ asins acc) → dedupGo acc l = acc ++ l := by
  induction l with
  | nil => intro acc _ _; simp [dedupGo]
  | cons o rest ih =>
    intro acc hnd hdisj
    have hno : o.asin ∉ asins acc := hdisj o.asin (by simp [asins])
    have hany : acc.any (fun e => e.asin = o.asin) = false := by
      simp only [List.any_eq_false, decide_eq_true_eq]
      intro e he hc
      exact hno (hc ▸ List.mem_map_of_mem Offer.asin he)
    have hrest : dedupGo (acc ++ [o]) rest = (acc ++ [o]) ++ rest := by
      refine ih (acc ++ [o]) ?_ ?_
      · exact ((List.nodup_cons.mp (by simpa [asins] using hnd)).2)
      · intro a ha
        have h1 : a ∉ asins acc := hdisj a (by simp [asins] at ha ⊢; right; exact ha)
        have h2 : a ≠ o.asin := by
          intro hc
          exact (List.nodup_cons.mp (by simpa [asins] using hnd)).1 (hc ▸ ha)
        simp [asins, h2]
        intro e he
        intro hc
        exact h1 (hc ▸ List.mem_map_of_mem Offer.asin he)
    calc dedupGo acc (o :: rest) = dedupGo (acc ++ [o]) rest := by
          simp [dedupGo, hany]
      _ = (acc ++ [o]) ++ rest := hrest
      _ = acc ++ o :: rest := by simp

theorem dedup_idem (l : List Offer) :
    deduplicateOffers (deduplicateOffers l) = deduplicateOffers l := by
  have hnd : (asins (deduplicateOffers l)).Nodup :=
    dedupGo_nodup l [] (by simp [asins])
  have := dedupGo_disjoint (deduplicateOffers l) [] hnd (by simp [asins])
  simpa [deduplicateOffers] using this

end Cli

/-- C6: merging the four raw records `B001@19.99`, `B001@18.99`, `B002@11.50`
(all reported by the primary source) and `B002@15.00` (reported by the
fallback source) yields exactly two merged offers: `B001` at 18.99 and `B002`
at 11.50, each carrying the sorted union of the sources that mentioned the
asin, with the provenance of the winning price. -/
theorem dedup_example_two_offers :
    Cli.deduplicateOffers
      [Cli.normaliseOffer "4006381333931" ⟨"B001", some (mkRat 1999 100), some "EUR"⟩ "sp",
       Cli.normaliseOffer "4006381333931" ⟨"B001", some (mkRat 1899 100), some "EUR"⟩ "sp",
       Cli.normaliseOffer "4006381333931" ⟨"B002", some (mkRat 1150 100), some "EUR"⟩ "sp",
       Cli.normaliseOffer "4006381333931" ⟨"B002", some (mkRat 1500 100), some "EUR"⟩ "pa"] =
    [⟨"4006381333931", "B001", some (mkRat 1899 100), some "EUR", "sp", ["sp"]⟩,
     ⟨"4006381333931", "B002", some (mkRat 1150 100), some "EUR", "sp", ["pa", "sp"]⟩] := by
  decide

/-- C7: offer merging is idempotent — feeding the merged output of
`_deduplicate_offers` back in as raw input leaves the listing-identifier to
price mapping unchanged (in fact the whole merged list is unchanged). -/
theorem dedup_idempotent_price_map (offers : List Cli.Offer) (asin : String) :
    Cli.asinPrice (Cli.deduplicateOffers (Cli.deduplicateOffers offers)) asin =
      Cli.asinPrice (Cli.deduplicateOffers offers) asin := by
  rw [Cli.dedup_idem]

namespace PackSize

theorem coerceStr_nonneg (s : String) (n : Int)
    (h : coerceStr s = .ok (some n)) : 0 ≤ n := by
  simp only [coerceStr] at h
  split at h
  · exact absurd h (by simp)
  · split at h
    · split at h
      · simp only [Except.ok.injEq, Option.some.injEq] at h
        exact h ▸ Int.natCast_nonneg _
      · exact absurd h (by simp)
    · split at h
      · simp only [Except.ok.injEq, Option.some.injEq] at h
        exact h ▸ Int.natCast_nonneg _
      · exact absurd h (by simp)

theorem coerceInt_nonneg (v : PyVal) (n : Int)
    (h : coerceInt v = .ok (some n)) : 0 ≤ n := by
  cases v with
  | none => exact absurd h (by simp [coerceInt])
  | bool b => exact absurd h (by simp [coerceInt])
  | int i =>
    simp only [coerceInt, Except.ok.injEq] at h
    split at h
    · have he := Option.some_inj.mp h
      subst he
      omega
    · exact absurd h (by simp)
  | float q =>
    simp only [coerceInt, Except.ok.injEq] at h
    split at h
    · rename_i hq
      have he := Option.some_inj.mp h
      subst he
      unfold pyTrunc
      rw [if_pos (le_of_lt hq)]
      exact Int.floor_nonneg.mpr (le_of_lt hq)
    · exact absurd h (by simp)
  | decimal q => exact coerceStr_nonneg _ _ h
  | str s => exact coerceStr_nonneg _ _ h
  | list xs => exact coerceStr_nonneg _ _ h
  | dict kvs => exact coerceStr_nonneg _ _ h

theorem itemCoerce_nonneg (x : PyVal) (n : Int)
    (h : itemCoerce x = .ok (some n)) : 0 ≤ n := by
  cases x <;> simp only [itemCoerce] at h <;> exact coerceInt_nonneg _ _ h

theorem listCandidate_nonneg (xs : List PyVal) :
    ∀ n : Int, listCandidate xs = .ok (some n) → 0 ≤ n := by
  induction xs with
  | nil => intro n h; exact absurd h (by simp [listCandidate])
  | cons x ys ih =>
    intro n h
    simp only [listCandidate] at h
    split at h
    · exact absurd h (by simp)
    · rename_i c heq
      split at h
      · exact itemCoerce_nonneg x n ((Except.ok.injEq .. ▸ h) ▸ heq)
      · cases ys with
        | nil => exact itemCoerce_nonneg x n ((Except.ok.injEq .. ▸ h) ▸ heq)
        | cons y zs => exact ih n h

theorem structuredCandidate_nonneg (v : PyVal) (n : Int)
    (h : structuredCandidate v = .ok (some n)) : 0 ≤ n := by
  cases v <;> simp only [structuredCandidate] at h <;>
    first
      | exact listCandidate_nonneg _ _ h
      | exact coerceInt_nonneg _ _ h

theorem structuredScan_pos (l : List (String × PyVal)) :
    ∀ n : Int, structuredScan l = .ok (some n) → 0 < n := by
  induction l with
  | nil => intro n h; exact absurd h (by simp [structuredScan])
  | cons kv rest ih =>
    intro n h
    simp only [structuredScan] at h
    split at h
    · split at h
      · exact absurd h (by simp)
      · rename_i c heq
        split at h
        · rename_i htr
          have hcn : c = some n := Except.ok.injEq .. ▸ h
          subst hcn
          have hne : n ≠ 0 := by simpa [optTruthy] using htr
          have := structuredCandidate_nonneg kv.2 n heq
          omega
        · exact ih n h
    · exact ih n h

theorem regexLoop_pos (t : String) (rs : List Rgx.Matcher) :
    ∀ n : ℕ, regexLoop t rs = some n → 0 < n := by
  induction rs with
  | nil => intro n h; exact absurd h (by simp [regexLoop])
  | cons r rest ih =>
    intro n h
    rw [regexLoop] at h
    split at h
    · split at h
      · cases h; assumption
      · exact ih n h
    · exact ih n h

theorem heuristicPackSize_pos (texts : List String) :
    ∀ rs n, heuristicPackSize texts rs = some n → 0 < n := by
  induction texts with
  | nil => intro rs n h; exact absurd h (by simp [heuristicPackSize])
  | cons t ts ih =>
    intro rs n h
    rw [heuristicPackSize] at h
    split at h
    · exact ih rs n h
    · split at h
      · cases h; exact regexLoop_pos t rs n (by assumption)
      · exact ih rs n h

theorem regexSetsLoop_pos (texts : List String) (sets : List (List Rgx.Matcher)) :
    ∀ n : Int, regexSetsLoop texts sets = some n → 0 < n := by
  induction sets with
  | nil => intro n h; exact absurd h (by simp [regexSetsLoop])
  | cons rs rest ih =>
    intro n h
    rw [regexSetsLoop] at h
    split at h
    · split at h
      · cases h
        exact_mod_cast heuristicPackSize_pos texts rs _ (by assumption)
      · exact ih n h
    · exact ih n h

end PackSize

/-- C2 counterexample: the claim fails on
`sdtmatchasin.pack_size.parse_pack_size` — a structured attribute holding the
negative value −3 is returned as the pack size, which is neither "unknown"
nor strictly positive. -/
theorem parse_pack_size_negative_leak :
    SdtPackSize.parse_pack_size
      { attributes := .dict [("item_package_quantity", .int (-3))] } = -3 ∧
    ¬ (0 < (-3 : Int)) := by
  exact ⟨rfl, by decide⟩

/-- C2 (amended): `pack_size.extract_pack_size` never returns a value that is
not strictly positive — whenever it returns a pack size at all, that size is
a positive integer, and zero or negative structured values are never
returned.  But neither half of the original claim survives in full: the
never-raises part fails for `extract_pack_size` itself, whose `_coerce_int`
leaves `int(value_str)` outside the try/except, so a structured attribute
string of digit-property characters such as `{"unitcount": "²"}` (accepted by
`str.isdigit` but rejected by `int`) raises an uncaught `ValueError`; and
`sdtmatchasin.pack_size.parse_pack_size` only rejects zero values, returning
a negative structured numeric value such as −3 as the pack size. -/
theorem extract_pack_size_positive_or_raises :
    (∀ (attributes : Option (List (String × PyVal))) (title : Option String)
       (bullet_points : Option (List String)) (locale : Option String) (n : Int),
      PackSize.extract_pack_size attributes title bullet_points locale = .ok (some n) →
      0 < n) ∧
    PackSize.extract_pack_size (some [("unitcount", PyVal.str "²")])
        Option.none Option.none Option.none = .error PackSize.PyExc.valueError ∧
    SdtPackSize.parse_pack_size
      { attributes := .dict [("item_package_quantity", .int (-3))] } = -3 := by
  refine ⟨?_, rfl, rfl⟩
  intro attributes title bullet_points locale n h
  unfold PackSize.extract_pack_size at h
  simp only [] at h
  cases heq : PackSize.structuredPackSize (attributes.getD []) with
  | error e => rw [heq] at h; exact absurd h (by simp)
  | ok ps =>
    rw [heq] at h
    dsimp only at h
    by_cases htr : optTruthy ps
    · rw [if_pos htr] at h
      have hps : ps = some n := Except.ok.injEq .. ▸ h
      subst hps
      exact PackSize.structuredScan_pos _ n
        (by simpa [PackSize.structuredPackSize] using heq)
    · rw [if_neg htr] at h
      split at h
      · exact absurd h (by simp)
      · simp only [Except.ok.injEq] at h
        exact PackSize.regexSetsLoop_pos _ _ n h

/-- C3 counterexample: `pack_size.extract_pack_size` has no final generic
"N×" / "N x" detector — on a title that is exactly `"3 x"` (which matches no
structured attribute and no locale or English pattern) it returns no value
rather than the pack size 3 the claim requires. -/
theorem extract_pack_size_no_nx_fallback :
    PackSize.extract_pack_size Option.none (some "3 x") Option.none Option.none =
      .ok Option.none := by
  rfl

/-- C3 (amended): the final generic "N×" / "N x" detector exists only in
`sdtmatchasin.pack_size.parse_pack_size`: there a title containing `"3 x"`
with no other pack vocabulary yields pack size 3 (tried on the title, the
only text that function reads, before the default 1 is returned, as on a
title with no numbers at all). -/
theorem parse_pack_size_nx_fallback :
    SdtPackSize.parse_pack_size { title := some "3 x", locale := some "en_GB" } = 3 ∧
    SdtPackSize.parse_pack_size
      { title := some "Random description, no numbers", locale := some "en_GB" } = 1 := by
  exact ⟨rfl, rfl⟩

/-- C1 (bug witness): for a lookup task whose source returns a listing with a
non-empty asin not yet in the seen-set and a brand that passes the filter
(here: no brand constraint at all), `process_marketplace` does not return a
result list — it raises `TypeError`, because `make_lookup_result` calls
`LookupResult(ean=…, marketplace=…, item=…)` without the `pricing` argument,
a required field of the dataclass. -/
theorem process_marketplace_raises_on_surviving_listing :
    Matcher.process_marketplace "4006381333931" "DE" Option.none
      (.ok [⟨"B001DEXAMPLE", "A1PA6795UKMFR9", some "Widget", Option.none, [], []⟩])
      [] = .error .typeError := by
  rfl

/-- C4 counterexample: with an empty row list and no constructible client,
`run_matcher` does not abort with a configuration error — it returns the
empty result (after writing a header-only output file) without ever
attempting to build a client, contradicting the claim's "for every input,
including an input whose row list is empty". -/
theorem runMatcher_empty_input_no_error :
    Matcher.runMatcherConfig [] ["DE"] Option.none Option.none =
      Matcher.ConfigOutcome.emptyInput ∧
    Matcher.ConfigOutcome.emptyInput ≠ Matcher.ConfigOutcome.noClient := by
  exact ⟨rfl, by decide⟩

/-- C4 (amended): for every run whose row list is non-empty and whose
marketplace list contains a valid (non-blank) code, if neither the SP-API
nor the PA-API factory yields a client, `run_matcher` raises the distinct
configuration error `ValueError("No Amazon API credentials available.
Aborting.")` before any lookup work is performed and before any output row
is produced; an empty row list instead returns the empty result without
constructing a client. -/
theorem runMatcher_no_client_aborts (rows marketplaces : List String)
    (hrows : rows ≠ [])
    (hmkts : (marketplaces.filter (fun c => c ≠ "")) ≠ []) :
    Matcher.runMatcherConfig rows marketplaces Option.none Option.none =
      Matcher.ConfigOutcome.noClient := by
  unfold Matcher.runMatcherConfig
  rw [if_neg (by simpa [List.isEmpty_iff] using hrows)]
  rw [if_neg (by simpa [List.isEmpty_iff] using hmkts)]

/-- Witness for the amended C4 at a concrete input. -/
theorem runMatcher_no_client_aborts_witness :
    Matcher.runMatcherConfig ["4006381333931"] ["DE"] Option.none Option.none =
      Matcher.ConfigOutcome.noClient :=
  runMatcher_no_client_aborts ["4006381333931"] ["DE"] (by decide) (by decide)

namespace Cli

theorem spLoop_all_empty (sp : ℕ → Except Unit (List RawOffer)) (ean : String) :
    ∀ (remaining attempt calls : ℕ),
      (∀ i, i ≤ attempt + remaining → sp i = .ok []) →
      spLoop sp ean attempt remaining [] calls = ([], calls + remaining + 1) := by
  intro remaining
  induction remaining with
  | zero =>
    intro attempt calls h
    have h0 : sp attempt = .ok [] := h attempt (by omega)
    simp [spLoop, h0]
  | succ r ih =>
    intro attempt calls h
    have h0 : sp attempt = .ok [] := h attempt (by omega)
    have hrec := ih (attempt + 1) (calls + 1) (fun i hi => h i (by omega))
    simp [spLoop, h0, hrec, Prod.mk.injEq]
    omega

end Cli

/-- C10: when the primary client's `search_items` returns an empty sequence
without raising on every attempt, `lookup_ean` consumes its whole retry
budget on the primary — exactly `retries + 1` calls — and then invokes the
fallback client exactly once; and if the fallback raises, `lookup_ean`
returns the empty list rather than propagating the error. -/
theorem lookup_ean_empty_retries_then_fallback (ean : String)
    (sp : ℕ → Except Unit (List Cli.RawOffer)) (pa : Except Unit (List Cli.RawOffer))
    (retries : ℕ) (hsp : ∀ i, i ≤ retries → sp i = .ok []) :
    (Cli.lookup_ean ean sp pa retries).spCalls = retries + 1 ∧
    (Cli.lookup_ean ean sp pa retries).paCalls = 1 ∧
    (pa = .error () → (Cli.lookup_ean ean sp pa retries).offers = []) := by
  have hl : Cli.spLoop sp ean 0 retries [] 0 = ([], retries + 1) := by
    have := Cli.spLoop_all_empty sp ean retries 0 0 (fun i hi => hsp i (by omega))
    simpa using this
  unfold Cli.lookup_ean
  rw [hl]
  cases pa with
  | error e => simp [Cli.LookupOutcome.spCalls]
  | ok raws => simp [Cli.deduplicateOffers]

/-- Witness for C10 at a concrete input: two retries, a primary that always
returns the empty list, a fallback that raises. -/
theorem lookup_ean_empty_retries_then_fallback_witness :
    (Cli.lookup_ean "4006381333931" (fun _ => .ok []) (.error ()) 2).spCalls = 3 ∧
    (Cli.lookup_ean "4006381333931" (fun _ => .ok []) (.error ()) 2).paCalls = 1 ∧
    (Cli.lookup_ean "4006381333931" (fun _ => .ok []) (.error ()) 2).offers = [] := by
  have h := lookup_ean_empty_retries_then_fallback "4006381333931"
    (fun _ => .ok []) (.error ()) 2 (fun i _ => rfl)
  exact ⟨h.1, h.2.1, h.2.2 rfl⟩

/-- C8: on the identifier list `[A, B, C, D]` of distinct (stripped,
non-blank) identifiers with resume marker `C`, `run_matcher` processes
exactly `C` and `D` — only they are submitted for lookup and appear in the
returned processed list — while the progress callback is still invoked with
increasing processed counts for the skipped identifiers `A` and `B` as well
as for `C` and `D` (after the initial `(0, total)` invocation). -/
theorem runMatcher_resume_skips_but_counts (A B C D : String)
    (hA : pyStrip A = A) (hB : pyStrip B = B) (hC : pyStrip C = C)
    (hD : pyStrip D = D)
    (hAne : A ≠ "") (hBne : B ≠ "") (hCne : C ≠ "") (hDne : D ≠ "")
    (hAC : A ≠ C) (hBC : B ≠ C) :
    Matcher.runMatcherRows [A, B, C, D] (some C) =
      ⟨[C, D], [C, D],
        [(0, 4, Option.none), (1, 4, some A), (2, 4, some B),
         (3, 4, some C), (4, 4, some D)]⟩ := by
  unfold Matcher.runMatcherRows
  simp only [hCne, if_neg, List.length_cons, List.length_nil, hC, Option.isNone_some]
  simp [Matcher.rowLoop, hA, hB, hC, hD, hAne, hBne, hCne, hDne, hAC, hBC]

/-- Witness for C8 at concrete identifiers. -/
theorem runMatcher_resume_skips_but_counts_witness :
    Matcher.runMatcherRows ["1001", "1002", "1003", "1004"] (some "1003") =
      ⟨["1003", "1004"], ["1003", "1004"],
        [(0, 4, Option.none), (1, 4, some "1001"), (2, 4, some "1002"),
         (3, 4, some "1003"), (4, 4, some "1004")]⟩ :=
  runMatcher_resume_skips_but_counts "1001" "1002" "1003" "1004"
    (by decide) (by decide) (by decide) (by decide)
    (by decide) (by decide) (by decide) (by decide) (by decide) (by decide)

namespace Matcher

theorem waitModel_lb (T last a o : ℚ) (hT : 0 < T) (_ha : last ≤ a) (ho : 0 ≤ o) :
    last + T ≤ (waitModel T last a o).1 := by
  unfold waitModel
  rw [if_neg (not_le.mpr hT)]
  dsimp only
  split
  · show last + T ≤ a + (T - (a - last)) + o
    linarith
  · rename_i hge
    show last + T ≤ a
    have := not_lt.mp hge
    linarith

theorem rlRun_chain (T : ℚ) (hT : 0 < T) :
    ∀ (calls : List (ℚ × ℚ)) (last : ℚ), ValidCalls T last calls →
      List.Chain (fun x y => x + T ≤ y) last (rlRun T last calls) := by
  intro calls
  induction calls with
  | nil => intro last _; simp [rlRun]
  | cons c rest ih =>
    intro last hv
    obtain ⟨ha, ho, hrest⟩ := hv
    simp only [rlRun]
    exact List.Chain.cons (waitModel_lb T last c.1 c.2 hT ha ho) (ih _ hrest)

theorem chain_to_chain' {R : ℚ → ℚ → Prop} {a : ℚ} :
    ∀ {l : List ℚ}, List.Chain R a l → List.Chain' R l
  | [], _ => List.chain'_nil
  | _ :: _, h => by cases h with | cons hab hbl => exact hbl

theorem chain_total (T : ℚ) :
    ∀ (l : List ℚ) (a : ℚ), List.Chain (fun x y => x + T ≤ y) a l →
      ∀ h : l ≠ [], a + l.length * T ≤ l.getLast h := by
  intro l
  induction l with
  | nil => intro a _ h; exact absurd rfl h
  | cons x t ih =>
    intro a hch _
    cases hch with
    | cons hax hxt =>
      cases t with
      | nil =>
        simpa using hax
      | cons y u =>
        have hx := ih x hxt (by simp)
        rw [List.getLast_cons (by simp)]
        have hlen : ((x :: y :: u : List ℚ).length : ℚ) * T
            = T + ((y :: u : List ℚ).length : ℚ) * T := by
          push_cast [List.length_cons]
          ring
        rw [hlen]
        linarith

theorem chain_span (T : ℚ) :
    ∀ (l : List ℚ) (a : ℚ), List.Chain (fun x y => x + T ≤ y) a l →
      ∀ h : l ≠ [], l.head h + ((l.length - 1 : ℕ) : ℚ) * T ≤ l.getLast h := by
  intro l
  cases l with
  | nil => intro a _ h; exact absurd rfl h
  | cons g gs =>
    intro a hch _
    cases hch with
    | cons hag hgs =>
      cases gs with
      | nil => simp
      | cons g1 gu =>
        have := chain_total T (g1 :: gu) g hgs (by simp)
        rw [List.head_cons, List.getLast_cons (by simp)]
        have hlen : (((g :: g1 :: gu : List ℚ).length - 1 : ℕ) : ℚ)
            = ((g1 :: gu : List ℚ).length : ℚ) := by
          push_cast [List.length_cons]
          ring
        rw [hlen]
        linarith

end Matcher

/-- C9: for every positive `minInterval = T` and every physically admissible
serialised run of `wait()` calls on one shared `RateLimiter` (clock readings
never before the previously recorded timestamp, sleeps never shorter than
requested), each granted call's recorded timestamp is at least `T` after the
previously granted one, so the `N` grants span wall-clock time at least
`(N − 1) × T`; and whenever the stored `_min_interval` is ≤ 0 (as the
constructor's clamp guarantees for any non-positive argument), a `wait()`
call returns immediately: it sleeps for 0 and leaves the state unchanged. -/
theorem rateLimiter_spacing :
    (∀ (T : ℚ) (calls : List (ℚ × ℚ)), 0 < T → Matcher.ValidCalls T 0 calls →
      List.Chain' (fun x y => x + T ≤ y) (Matcher.rlRun T 0 calls) ∧
      ∀ (h : Matcher.rlRun T 0 calls ≠ []),
        (Matcher.rlRun T 0 calls).head h +
            (((Matcher.rlRun T 0 calls).length - 1 : ℕ) : ℚ) * T ≤
          (Matcher.rlRun T 0 calls).getLast h) ∧
    (∀ (T last a o : ℚ), T ≤ 0 → Matcher.waitModel T last a o = (last, 0)) := by
  refine ⟨fun T calls hT hv => ?_, fun T last a o hle => ?_⟩
  · have hchain := Matcher.rlRun_chain T hT calls 0 hv
    exact ⟨Matcher.chain_to_chain' hchain,
      Matcher.chain_span T (Matcher.rlRun T 0 calls) 0 hchain⟩
  · unfold Matcher.waitModel
    rw [if_pos hle]

/-- Witness for C9 at a concrete run: `T = 1`, two admissible calls, and a
non-positive stored interval. -/
theorem rateLimiter_spacing_witness :
    (List.Chain' (fun x y => x + 1 ≤ y) (Matcher.rlRun 1 0 [(0, 0), (5, 0)]) ∧
      ∀ (h : Matcher.rlRun 1 0 [(0, 0), (5, 0)] ≠ []),
        (Matcher.rlRun 1 0 [(0, 0), (5, 0)]).head h +
            (((Matcher.rlRun 1 0 [(0, 0), (5, 0)]).length - 1 : ℕ) : ℚ) * 1 ≤
          (Matcher.rlRun 1 0 [(0, 0), (5, 0)]).getLast h) ∧
    Matcher.waitModel 0 7 9 0 = (7, 0) :=
  ⟨rateLimiter_spacing.1 1 [(0, 0), (5, 0)] (by norm_num)
      (by norm_num [Matcher.ValidCalls, Matcher.waitModel]),
    rateLimiter_spacing.2 0 7 9 0 (by norm_num)⟩

namespace Matcher

theorem seenGet_insert (seen : SeenMap) (key : String × String) (a : String) :
    ∀ k', seenGet (seenInsert seen key a) k' =
      if k' = key then seenGet seen key ++ [a] else seenGet seen k' := by
  induction seen with
  | nil =>
    intro k'
    by_cases h : k' = key <;>
      simp [seenInsert, seenGet, h, Ne.symm]
  | cons e rest ih =>
    intro k'
    by_cases he : e.1 = key <;> by_cases hk : k' = key <;>
      simp [seenInsert, seenGet, he, hk, ih, Ne.symm]

theorem seenMem_insert (seen : SeenMap) (k1 k2 a : String)
    (x : String × String × String) :
    seenMem (seenInsert seen (k1, k2) a) x ↔
      seenMem seen x ∨ x = (k1, k2, a) := by
  obtain ⟨x1, x2, x3⟩ := x
  unfold seenMem
  rw [seenGet_insert]
  by_cases hk : ((x1, x2) : String × String) = (k1, k2)
  · have h1 : x1 = k1 := congrArg Prod.fst hk
    have h2 : x2 = k2 := congrArg Prod.snd hk
    subst h1; subst h2
    simp [Prod.ext_iff]
  · rw [if_neg hk]
    have hx : ((x1, x2, x3) : String × String × String) ≠ (k1, k2, a) := by
      intro hcon
      apply hk
      have h1 : x1 = k1 := congrArg Prod.fst hcon
      have h2 : x2 = k2 := congrArg (fun p => p.2.1) hcon
      rw [h1, h2]
    simp [hx]

theorem claimsOf_append (l1 l2 : List WTask) :
    claimsOf (l1 ++ l2) = claimsOf l1 ++ claimsOf l2 := by
  simp [claimsOf, List.filterMap_append]

theorem claimsOf_cons_none (t : WTask) (l : List WTask) (h : t.claimed = Option.none) :
    claimsOf (t :: l) = claimsOf l := by
  simp [claimsOf, List.filterMap_cons, h]

theorem claimsOf_cons_some (t : WTask) (l : List WTask) (a : String)
    (h : t.claimed = some a) :
    claimsOf (t :: l) = (t.ean, t.mkt, a) :: claimsOf l := by
  simp [claimsOf, List.filterMap_cons, h]

theorem claimsOf_cons (t : WTask) (l : List WTask) :
    claimsOf (t :: l) =
      (match t.claimed with
       | some a => [(t.ean, t.mkt, a)]
       | Option.none => []) ++ claimsOf l := by
  cases h : t.claimed <;> simp [claimsOf, List.filterMap_cons, h]

end Matcher

namespace Matcher

theorem seenMem_mono (seen : SeenMap) (k1 k2 a : String)
    (x : String × String × String) (h : seenMem seen x) :
    seenMem (seenInsert seen (k1, k2) a) x :=
  (seenMem_insert seen k1 k2 a x).mpr (Or.inl h)

theorem step_inv {s s' : Sys} (hst : Step s s') (hi : Inv s) : Inv s' := by
  cases hst with
  | lock pre post t item rest seen emitted hp hc =>
    unfold Inv at hi ⊢
    obtain ⟨h1, h2, h3, h4, h5⟩ := hi
    dsimp only at h1 h2 h3 h4 h5 ⊢
    simp only [claimsOf_append, claimsOf_cons, hc, List.nil_append] at h2 h4 h5
    by_cases hblank : item.asin = ""
    · simp only [lockUpd]
      rw [if_pos hblank]
      dsimp only
      simp only [claimsOf_append, claimsOf_cons, hc, List.nil_append]
      exact ⟨h1, h2, h3, h4, h5⟩
    · by_cases hseen : item.asin ∈ seenGet seen (t.ean, t.mkt)
      · simp only [lockUpd]
        rw [if_neg hblank, if_pos hseen]
        dsimp only
        simp only [claimsOf_append, claimsOf_cons, hc, List.nil_append]
        exact ⟨h1, h2, h3, h4, h5⟩
      · have hnotmem : ¬ seenMem seen (t.ean, t.mkt, item.asin) := hseen
        by_cases hbrand : brand_matches t.brand item.brand
        · simp only [lockUpd]
          rw [if_neg hblank, if_neg hseen, if_pos hbrand]
          dsimp only
          simp only [claimsOf_append, claimsOf_cons, List.singleton_append]
          refine ⟨h1, ?_, ?_, ?_, ?_⟩
          · rw [List.nodup_middle]
            refine List.nodup_cons.mpr ⟨?_, h2⟩
            intro hmem
            exact hnotmem (h4 _ hmem)
          · intro x hx
            exact seenMem_mono seen t.ean t.mkt item.asin x (h3 x hx)
          · intro x hx
            rcases List.mem_append.mp hx with hx1 | hx2
            · exact seenMem_mono seen t.ean t.mkt item.asin x
                (h4 x (List.mem_append.mpr (Or.inl hx1)))
            · rcases List.mem_cons.mp hx2 with hx0 | hx3
              · subst hx0
                exact (seenMem_insert seen t.ean t.mkt item.asin _).mpr (Or.inr rfl)
              · exact seenMem_mono seen t.ean t.mkt item.asin x
                  (h4 x (List.mem_append.mpr (Or.inr hx3)))
          · intro x hx
            rcases List.mem_append.mp hx with hx1 | hx2
            · exact h5 x (List.mem_append.mpr (Or.inl hx1))
            · rcases List.mem_cons.mp hx2 with hx0 | hx3
              · subst hx0
                intro hmem
                exact hnotmem (h3 _ hmem)
              · exact h5 x (List.mem_append.mpr (Or.inr hx3))
        · simp only [lockUpd]
          rw [if_neg hblank, if_neg hseen, if_neg hbrand]
          dsimp only
          simp only [claimsOf_append, claimsOf_cons, hc, List.nil_append]
          refine ⟨h1, h2, ?_, ?_, h5⟩
          · intro x hx
            exact seenMem_mono seen t.ean t.mkt item.asin x (h3 x hx)
          · intro x hx
            exact seenMem_mono seen t.ean t.mkt item.asin x (h4 x hx)
  | emit pre post t a seen emitted hcla =>
    unfold Inv at hi ⊢
    obtain ⟨h1, h2, h3, h4, h5⟩ := hi
    dsimp only at h1 h2 h3 h4 h5 ⊢
    simp only [claimsOf_append, claimsOf_cons, hcla, List.singleton_append] at h2 h4 h5
    have hmid : ∀ x, x ∈ claimsOf pre ++ claimsOf post →
        x ∈ claimsOf pre ++ (t.ean, t.mkt, a) :: claimsOf post := by
      intro x hx
      rcases List.mem_append.mp hx with h | h
      · exact List.mem_append.mpr (Or.inl h)
      · exact List.mem_append.mpr (Or.inr (List.mem_cons.mpr (Or.inr h)))
    have hx0mem : (t.ean, t.mkt, a) ∈ claimsOf pre ++ (t.ean, t.mkt, a) :: claimsOf post := by
      simp
    have hx0notem : (t.ean, t.mkt, a) ∉ emitted := h5 _ hx0mem
    have hx0seen : seenMem seen (t.ean, t.mkt, a) := h4 _ hx0mem
    have h2m := List.nodup_middle.mp h2
    have hx0notcl : (t.ean, t.mkt, a) ∉ claimsOf pre ++ claimsOf post :=
      (List.nodup_cons.mp h2m).1
    have h2pp : (claimsOf pre ++ claimsOf post).Nodup := (List.nodup_cons.mp h2m).2
    simp only [claimsOf_append, claimsOf_cons, List.nil_append]
    refine ⟨?_, h2pp, ?_, ?_, ?_⟩
    · refine List.Nodup.append h1 (List.nodup_singleton _) ?_
      intro y hy hz
      rw [List.mem_singleton] at hz
      subst hz
      exact hx0notem hy
    · intro x hx
      rcases List.mem_append.mp hx with hxe | hxs
      · exact h3 x hxe
      · rw [List.mem_singleton] at hxs
        subst hxs
        exact hx0seen
    · intro x hx
      exact h4 x (hmid x hx)
    · intro x hx hxe
      rcases List.mem_append.mp hxe with hxe1 | hxe2
      · exact h5 x (hmid x hx) hxe1
      · rw [List.mem_singleton] at hxe2
        subst hxe2
        exact hx0notcl hx

theorem reach_inv {s s' : Sys} (h : Reach s s') (hi : Inv s) : Inv s' := by
  induction h with
  | refl => exact hi
  | tail hsteps hstep ih => exact step_inv hstep ih

theorem init_inv (ts : List (String × String × Option String × List CatalogItemSummary)) :
    Inv (initSys ts) := by
  have hcl : claimsOf (initSys ts).tasks = [] := by
    simp [initSys, claimsOf, List.filterMap_map]
  refine ⟨by simp [initSys], by simp [hcl], by simp [initSys], ?_, ?_⟩
  · intro x hx
    rw [hcl] at hx
    exact absurd hx (List.not_mem_nil x)
  · intro x hx
    rw [hcl] at hx
    exact absurd hx (List.not_mem_nil x)

end Matcher

/-- C5: over any interleaved execution of lookup tasks sharing one seen-set
and its lock (any number of tasks, any schedule), the emitted result set
contains no two results with the same (identifier, marketplace, listing
identifier): the locked check-and-insert records each asin for its
(ean, marketplace) key exactly once, so each listing identifier is emitted at
most once per pair. -/
theorem seenSet_no_duplicate_emissions
    (ts : List (String × String × Option String × List Matcher.CatalogItemSummary))
    (s : Matcher.Sys) (h : Matcher.Reach (Matcher.initSys ts) s) :
    s.emitted.Nodup :=
  (Matcher.reach_inv h (Matcher.init_inv ts)).1

/-- Witness for C5: the empty batch reaches itself in zero steps and its
emitted set is duplicate-free. -/
theorem seenSet_no_duplicate_emissions_witness :
    (Matcher.initSys []).emitted.Nodup :=
  seenSet_no_duplicate_emissions [] (Matcher.initSys []) Relation.ReflTransGen.refl
